import Mathlib

/-!
Verification development for the chat SSE relay service.

The definitions below are a shallow embedding of the Python sources:
  * `app/services/openai_client.py`  (MockStream, event vocabulary)
  * `app/services/voice_client.py`   (VoiceMockStream, synthesize_stream)
  * `app/services/session_store.py`  (SessionStore)
  * `app/main.py`                    (stream_generator, stream_with_voice,
                                      chat_stream_post)
  * `app/utils/logger.py`            (_redact_text, build_preview)

Python dict payloads are modelled as association lists of JSON-like values,
Python truthiness is modelled explicitly, machine time is an abstract `Nat`
parameter, and a stream that may raise mid-iteration is modelled as the list
of elements it yielded before either finishing or raising.
-/

namespace ChatSSE

/-- JSON-like payload values appearing in event `data` dicts. -/
inductive JVal where
  | s (v : String)
  | n (v : Nat)
  | dict (v : List (String × JVal))

/-- A Python dict payload: ordered association list of key/value pairs. -/
abbrev Payload := List (String × JVal)

/-- `dict.get(key)`: first binding of `key`, `none` when absent. -/
def Payload.get (p : Payload) (k : String) : Option JVal :=
  (p.find? (fun e => e.1 = k)).map (·.2)

/-- Python truthiness of a value: `""`, `0` and `{}` are falsy. -/
def JVal.truthy : JVal → Bool
  | .s v => v ≠ ""
  | .n v => v ≠ 0
  | .dict d => !d.isEmpty

/-- Python truthiness of an optional value (`None` is falsy). -/
def optTruthy : Option JVal → Bool
  | none => false
  | some v => v.truthy

/-- Python `a or b` on two expressions whose values are optional strings
(`None` and `""` are falsy). -/
def pyOrOpt (a b : Option String) : Option String :=
  match a with
  | some s => if s ≠ "" then some s else b
  | none => b

/-- Python `a or b` where `b` is a (truthy) string: used for
`session_id or request_id`. -/
def pyOrStr (a : Option String) (b : String) : String :=
  match a with
  | some s => if s ≠ "" then s else b
  | none => b

/-- Truthiness of an optional string (`None` and `""` are falsy), used for
`if voice_id:` and `if body.messages:` style tests. -/
def strTruthy : Option String → Bool
  | none => false
  | some s => s ≠ ""

/-- Whether `needle` occurs at the head of `hay` (`str.startswith`). -/
def startsWithL : List Char → List Char → Bool
  | _, [] => true
  | [], _ :: _ => false
  | h :: t, n :: ns => h = n && startsWithL t ns

/-- Whether `needle` occurs contiguously inside `hay` (Python `in` on `str`). -/
def hasSubstr : List Char → List Char → Bool
  | hay, needle =>
    startsWithL hay needle ||
      match hay with
      | [] => false
      | _ :: t => hasSubstr t needle

/-! ### Messages and the conversation data model (`app/types.py`, `app/main.py`) -/

/-- One `{type, text}` rich-content part of a message. -/
structure ContentPart where
  type : String
  text : String
deriving Repr, DecidableEq

/-- One chat message `{role, content}` as stored in the session cache and
sent to the backend. -/
structure Message where
  role : String
  content : List ContentPart
deriving Repr, DecidableEq

/-- The fixed assistant placeholder appended after every finished stream
(`app/main.py` line 294). -/
def placeholderMsg : Message :=
  ⟨"assistant", [⟨"text", "(流式回复已发送)"⟩]⟩

/-! ### Upstream text events (`app/services/openai_client.py`) -/

/-- `MockEvent`: upstream event objects with a `type` tag and a dict `data`
payload.  Both the mock stream and the chat-completions adapter produce
exactly this shape. -/
structure MockEvent where
  type : String
  data : Payload

/-- The canned simulated reply (`openai_client.py` line 63). -/
def MOCK_REPLY : String := "这是一个模拟流式回复，用于本地验证SSE。"

/-- The synthetic usage summary of `MockStream`
(`openai_client.py` line 36). -/
def mockUsage (reply : String) : Payload :=
  [("input_tokens", .n 0), ("output_tokens", .n reply.length),
   ("total_tokens", .n reply.length)]

/-- The event sequence yielded by `MockStream.events`
(`openai_client.py` lines 29-38): lifecycle bookends, one `content.delta`
per character of the canned reply, a stop marker, usage, completion. -/
def mockStreamEvents (reply : String) : List MockEvent :=
  [⟨"response.created", [("id", .s "mock-001")]⟩, ⟨"message.start", []⟩]
    ++ reply.data.map (fun c => ⟨"content.delta", [("delta", .s (String.singleton c))]⟩)
    ++ [⟨"message.stop", []⟩, ⟨"response.usage", mockUsage reply⟩,
        ⟨"response.completed", []⟩]

/-- `MockStream.get_final_response` (`openai_client.py` lines 40-41). -/
def mockFinalResponse (reply : String) : Payload :=
  [("usage", .dict (mockUsage reply))]

/-- An upstream text stream as observed by `stream_generator`:
the events it yields, whether iterating it raises after those events
(`raises = some msg` models a mid-stream exception with message `msg`),
and the result of `get_final_response` (`none` models the finalize call
itself raising, which `stream_generator` swallows). -/
structure TextStream where
  events : List MockEvent
  raises : Option String
  finalResponse : Option Payload

/-- The `MockStream` of `openai_client.py` as a `TextStream`: never raises
and reports the synthetic final usage. -/
def mockTextStream (reply : String) : TextStream :=
  ⟨mockStreamEvents reply, none, some (mockFinalResponse reply)⟩

/-! ### Wire events (`app/main.py`, `to_sse` frames) -/

/-- The normalized wire-event vocabulary written to the SSE response. -/
inductive WireEvent where
  | created (requestId : String) (sessionId : Option String)
  | contentDelta (text : JVal)
  | passthrough (event : String) (data : Payload)
  | usage (data : Payload)
  | completed (data : Payload)
  | error (message : String)
  | audioChunk (data : Payload)
  | audioCompleted (voiceId : String) (sessionId : String)

def isCreated : WireEvent → Bool
  | .created _ _ => true
  | _ => false

def isContentDelta : WireEvent → Bool
  | .contentDelta _ => true
  | _ => false

def isCompleted : WireEvent → Bool
  | .completed _ => true
  | _ => false

def isError : WireEvent → Bool
  | .error _ => true
  | _ => false

def isAudioChunk : WireEvent → Bool
  | .audioChunk _ => true
  | _ => false

def isAudioCompleted : WireEvent → Bool
  | .audioCompleted _ _ => true
  | _ => false

/-- Number of events of a given kind in a wire-event sequence. -/
def countEv (p : WireEvent → Bool) (l : List WireEvent) : Nat :=
  (l.filter p).length

/-- The event-type test of the delta branch (`main.py` line 108):
`"delta" in etype or etype in ("content.delta", "response.output_text.delta")`. -/
def isDeltaType (etype : String) : Bool :=
  hasSubstr etype.data "delta".data
    || etype = "content.delta" || etype = "response.output_text.delta"

/-- Python `x or y` on the two delta lookups (`main.py` line 111):
the first truthy value wins, otherwise the second operand is returned. -/
def firstTruthy (a b : Option JVal) : Option JVal :=
  if optTruthy a then a else b

/-- The branch of `stream_generator` reached when the delta branch does not
fire (`main.py` lines 124-141): pass through start/stop markers, usage and
upstream completion events, drop everything else. -/
def processRest (e : MockEvent) : List WireEvent :=
  if e.type = "message.start" || e.type = "message.stop" then
    [.passthrough e.type e.data]
  else if e.type = "response.usage" then [.usage e.data]
  else if e.type = "response.completed" then [.completed e.data]
  else []

/-- Normalization of one upstream event inside the `for event in stream`
loop of `stream_generator` (`main.py` lines 104-141).  A delta-tagged event
with a truthy delta value emits `content.delta` and short-circuits; a
delta-tagged event without one falls through to the remaining checks
(the Python `continue` sits inside `if delta:`).  `MockEvent` objects carry
their payload in the `data` attribute, so the `getattr(event, "delta", None)`
fallback for non-dict data yields `None` when the dict is empty (falsy). -/
def extractDelta (e : MockEvent) : Option JVal :=
  if !e.data.isEmpty then firstTruthy (e.data.get "delta") (e.data.get "text")
  else none

def processEvent (e : MockEvent) : List WireEvent :=
  if isDeltaType e.type then
    if optTruthy (extractDelta e) then [.contentDelta ((extractDelta e).getD (.s ""))]
    else processRest e
  else processRest e

/-- The finalize step of `stream_generator` (`main.py` lines 143-163):
fetch `get_final_response`, extract `usage` defensively and forward it when
truthy; every exception in this step is swallowed. -/
def finalizeEvents (fin : Option Payload) : List WireEvent :=
  match fin with
  | none => []
  | some final =>
    match final.get "usage" with
    | some u => if u.truthy then [.usage (match u with | .dict d => d | _ => [])] else []
    | none => []

/-- `stream_generator` (`main.py` lines 83-171): emit `response.created`,
forward each normalized upstream event, then on normal exhaustion emit the
optional final usage followed by the generator's own `response.completed`;
an exception while iterating is caught and turned into a single
`response.error`, ending the generator. -/
def stream_generator (s : TextStream) (requestId : String)
    (sessionId : Option String) : List WireEvent :=
  WireEvent.created requestId sessionId ::
    match s.raises with
    | some msg => s.events.flatMap processEvent ++ [.error msg]
    | none =>
        s.events.flatMap processEvent ++ finalizeEvents s.finalResponse
          ++ [.completed []]

/-! ### The mock audio source (`app/services/voice_client.py`) -/

/-- UTF-8 encoding of one character (the byte sequence Python's
`str.encode("utf-8")` produces for it), bytes as `Nat`. -/
def utf8EncodeCharNat (c : Char) : List Nat :=
  if c.toNat < 0x80 then [c.toNat]
  else if c.toNat < 0x800 then [0xC0 + c.toNat / 64, 0x80 + c.toNat % 64]
  else if c.toNat < 0x10000 then
    [0xE0 + c.toNat / 4096, 0x80 + c.toNat / 64 % 64, 0x80 + c.toNat % 64]
  else
    [0xF0 + c.toNat / 262144, 0x80 + c.toNat / 4096 % 64, 0x80 + c.toNat / 64 % 64,
     0x80 + c.toNat % 64]

/-- `text.encode("utf-8")` for a whole string. -/
def utf8Bytes (s : String) : List Nat :=
  s.data.flatMap utf8EncodeCharNat

/-- The standard base64 alphabet used by `base64.b64encode`. -/
def b64Table : List Char :=
  "ABCDEFGHIJKLMNOPQRSTUVWXYZabcdefghijklmnopqrstuvwxyz0123456789+/".data

/-- Character for a 6-bit group. -/
def b64Char (n : Nat) : Char := b64Table.getD n 'A'

/-- Index of a character in the base64 alphabet (64 when absent). -/
def b64Val (c : Char) : Nat :=
  let rec go : List Char → Nat
    | [] => 0
    | x :: xs => if x = c then 0 else go xs + 1
  go b64Table

/-- `base64.b64encode`: encode bytes in groups of three, padding the final
group with `=`. -/
def b64EncodeBytes : List Nat → List Char
  | [] => []
  | [a] => [b64Char (a / 4), b64Char (a % 4 * 16), '=', '=']
  | [a, b] =>
      [b64Char (a / 4), b64Char (a % 4 * 16 + b / 16), b64Char (b % 16 * 4), '=']
  | a :: b :: c :: rest =>
      [b64Char (a / 4), b64Char (a % 4 * 16 + b / 16),
       b64Char (b % 16 * 4 + c / 64), b64Char (c % 64)]
        ++ b64EncodeBytes rest

/-- Standard base64 decoding: decode in groups of four characters,
honouring `=` padding. -/
def b64DecodeBytes : List Char → List Nat
  | a :: b :: c :: d :: rest =>
      if c = '=' then [b64Val a * 4 + b64Val b / 16]
      else if d = '=' then
        [b64Val a * 4 + b64Val b / 16, b64Val b % 16 * 16 + b64Val c / 4]
      else
        [b64Val a * 4 + b64Val b / 16, b64Val b % 16 * 16 + b64Val c / 4,
         b64Val c % 4 * 64 + b64Val d]
          ++ b64DecodeBytes rest
  | _ => []

/-- The fixed-size byte windows `data[i : i + chunk_size]` taken by
`VoiceMockStream.events` (`voice_client.py` lines 24-30) for
`i in range(0, len(data), chunk_size)`.  Python raises on a zero step, so
only `0 < cs` is meaningful; the equation `(d :: ds).drop cs = ds.drop (cs - 1)`
used below is exact for every `cs ≥ 1`. -/
def windowChunksAux (cs : Nat) : Nat → List Nat → List (List Nat)
  | _, [] => []
  | 0, _ :: _ => []
  | fuel + 1, d :: ds => (d :: ds).take cs :: windowChunksAux cs fuel (ds.drop (cs - 1))

def windowChunks (cs : Nat) (data : List Nat) : List (List Nat) :=
  windowChunksAux cs data.length data

/-- The `{"b64": ...}` dicts yielded by iterating a `VoiceMockStream` with
window size `cs`.  Simulated-mode `synthesize_stream` constructs such a
stream with the default `chunk_size = 10` (`voice_client.py` line 106) —
but, because of the generator bug modelled in `voiceMockAudio` below, then
discards it, so these dicts never reach the caller. -/
def voiceMockEvents (cs : Nat) (text : String) : List Payload :=
  (windowChunks cs (utf8Bytes text)).map
    (fun w => [("b64", JVal.s (String.mk (b64EncodeBytes w)))])

/-- An audio stream as observed by `stream_with_voice`: the `{"b64": ...}`
dicts it yields, and whether iterating (or establishing) it raises after
those chunks. -/
structure AudioStream where
  chunks : List Payload
  raises : Option String

/-- Iterating the object returned by `VoiceClient.synthesize_stream` in
simulated mode.  The `yield` at `voice_client.py` line 145 makes the whole
method a generator function, so its mock-mode
`return VoiceMockStream(text)` (line 106) does not hand the mock stream to
the caller: inside a generator function, `return` terminates iteration
(the value rides an invisible `StopIteration`).  The constructed
`VoiceMockStream` is discarded, and the generator the caller iterates
yields zero chunks and finishes normally. -/
def voiceMockAudio (_text : String) : AudioStream :=
  ⟨[], none⟩

/-- `stream_with_voice` (`main.py` lines 174-207): forward every text event,
then, only when `voice_id` is truthy, forward each audio chunk as
`audio.chunk` and close with a single `audio.completed` carrying the voice
id and `session_id or request_id`.  Exceptions from the audio iteration are
not caught: the generator aborts (second component `true`) and nothing is
emitted after the chunks already yielded. -/
def stream_with_voice (ts : TextStream) (audio : AudioStream)
    (voiceId : Option String) (requestId : String) (sessionId : Option String) :
    List WireEvent × Bool :=
  let textEvents := stream_generator ts requestId sessionId
  if strTruthy voiceId then
    let sidForTts := pyOrStr sessionId requestId
    match audio.raises with
    | some _ => (textEvents ++ audio.chunks.map WireEvent.audioChunk, true)
    | none =>
        (textEvents ++ audio.chunks.map WireEvent.audioChunk
          ++ [WireEvent.audioCompleted (voiceId.getD "") sidForTts], false)
  else (textEvents, false)

/-! ### Session context cache (`app/services/session_store.py`) -/

/-- One stored record: message history plus last-touched timestamp. -/
structure SessionRecord where
  messages : List Message
  ts : Nat
deriving Repr, DecidableEq

/-- The in-memory `sessionId -> record` dict. -/
abbrev Store := List (String × SessionRecord)

/-- Dict lookup. -/
def Store.lookup (st : Store) (sid : String) : Option SessionRecord :=
  (st.find? (fun e => e.1 = sid)).map (·.2)

/-- `del self.store[session_id]`. -/
def Store.erase (st : Store) (sid : String) : Store :=
  st.filter (fun e => ¬ e.1 = sid)

/-- Dict assignment `self.store[session_id] = record`. -/
def Store.insert (st : Store) (sid : String) (r : SessionRecord) : Store :=
  (sid, r) :: st.erase sid

/-- The constructor parameters of `SessionStore` with their defaults
(`session_store.py` line 23). -/
structure StoreCfg where
  ttl_seconds : Nat := 7200
  max_rounds : Nat := 10
deriving Repr, DecidableEq

def defaultCfg : StoreCfg := {}

/-- `SessionStore._is_expired` at time `now`: `(time.time() - ts) > ttl`.
Natural subtraction truncates at zero exactly as the Python float
difference is non-positive when `now ≤ ts`, so the comparison agrees. -/
def StoreCfg.isExpired (cfg : StoreCfg) (now ts : Nat) : Bool :=
  now - ts > cfg.ttl_seconds

/-- The trim `messages[-max_rounds * 2 :]` applied when the history exceeds
the window (`session_store.py` lines 44-45 and 50-51).  Python's `l[-0:]`
is the whole list, hence the inner guard for `n = 0`. -/
def trimWindow (n : Nat) (l : List Message) : List Message :=
  if l.length > n then (if n = 0 then l else l.drop (l.length - n)) else l

/-- `SessionStore.get` (`session_store.py` lines 31-38): empty history for
an unknown key; an expired record is deleted as a side effect of the read
and yields empty history; otherwise the stored messages.  Returns the
history together with the (possibly mutated) store. -/
def SessionStore.get (cfg : StoreCfg) (st : Store) (now : Nat) (sid : String) :
    List Message × Store :=
  match st.lookup sid with
  | none => ([], st)
  | some rec =>
    if cfg.isExpired now rec.ts then ([], st.erase sid)
    else (rec.messages, st)

/-- `SessionStore.append` (`session_store.py` lines 40-46): read the current
(non-expired) history through `get`, append, trim to the most recent
`max_rounds * 2` entries, write back with a refreshed timestamp. -/
def SessionStore.append (cfg : StoreCfg) (st : Store) (now : Nat)
    (sid : String) (m : Message) : Store :=
  let (msgs, st1) := SessionStore.get cfg st now sid
  st1.insert sid ⟨trimWindow (cfg.max_rounds * 2) (msgs ++ [m]), now⟩

/-- `SessionStore.set` (`session_store.py` lines 48-52): replace the history
wholesale, applying the same trim rule and refreshing the timestamp. -/
def SessionStore.set (cfg : StoreCfg) (st : Store) (now : Nat)
    (sid : String) (msgs : List Message) : Store :=
  st.insert sid ⟨trimWindow (cfg.max_rounds * 2) msgs, now⟩

/-! ### The request endpoint (`app/main.py`, `chat_stream_post`) -/

/-- The request-body fields of `ChatStreamBody` that reach the session store
and the stream orchestration.  `model`, `system`, `systemPromptName` and
`temperature` only shape the upstream backend request (via `build_messages`
and `stream_response`) and never influence the store or the wire events, so
they are not modelled. -/
structure ChatStreamBody where
  input : String
  sessionId : Option String
  messages : Option (List Message)

/-- The observable outcome of one `POST /chat/stream` request:
the wire events written to the SSE response, the session store after the
request, whether the response generator aborted with an uncaught exception,
and the history handed to `build_messages`. -/
structure RequestOutcome where
  events : List WireEvent
  store : Store
  aborted : Bool
  history : List Message

/-- `chat_stream_post` together with its inner `run_stream` generator
(`main.py` lines 240-296): resolve the store key as
`sessionId or request_id`; when inline `messages` are truthy, `set` them and
use them as history, otherwise `get` the stored history; resolve the voice
id as `header("X-Voice-Id") or query("voiceId")`; stream text then audio via
`stream_with_voice`; after the generator chain is exhausted append the fixed
placeholder assistant turn — the append is reached only when no exception
propagated out of the generator chain.  `now` is the time at request start
and `now2` the time at the final append. -/
def chat_stream_post (cfg : StoreCfg) (st : Store) (now now2 : Nat)
    (body : ChatStreamBody) (voiceHeader voiceQuery : Option String)
    (ts : TextStream) (audio : AudioStream) (requestId : String) :
    RequestOutcome :=
  let sessionKey := pyOrStr body.sessionId requestId
  let histSt :=
    match body.messages with
    | some msgs =>
      if msgs.isEmpty then SessionStore.get cfg st now sessionKey
      else (msgs, SessionStore.set cfg st now sessionKey msgs)
    | none => SessionStore.get cfg st now sessionKey
  let voiceId := pyOrOpt voiceHeader voiceQuery
  let evAb := stream_with_voice ts audio voiceId requestId body.sessionId
  let finalStore :=
    if evAb.2 then histSt.2
    else SessionStore.append cfg histSt.2 now2 sessionKey placeholderMsg
  ⟨evAb.1, finalStore, evAb.2, histSt.1⟩

/-! ### Redaction and content previews (`app/utils/logger.py`)

The three `re.sub` passes of `_redact_text` are embedded as character-level
matchers with the exact greedy/backtracking behaviour of the compiled
patterns.  `\w`, `\s`, `\d` are modelled over their ASCII ranges, which is
exact for every input fed to the redactor in this development. -/

def isAsciiUpper (c : Char) : Bool := 'A' ≤ c && c ≤ 'Z'

def isAsciiLower (c : Char) : Bool := 'a' ≤ c && c ≤ 'z'

def isAsciiLetter (c : Char) : Bool := isAsciiUpper c || isAsciiLower c

def isAsciiDigit (c : Char) : Bool := '0' ≤ c && c ≤ '9'

/-- `\w` (ASCII range). -/
def isWordChar (c : Char) : Bool := isAsciiLetter c || isAsciiDigit c || c = '_'

def isWordOpt : Option Char → Bool
  | none => false
  | some c => isWordChar c

/-- `\b` between the previous character (`none` at string start) and the
character at the current position. -/
def atBoundary (prev : Option Char) (cur : Char) : Bool :=
  isWordOpt prev != isWordChar cur

/-- `\s` (ASCII range). -/
def isSpaceChar (c : Char) : Bool :=
  c = ' ' || c = '\t' || c = '\n' || c = '\x0b' || c = '\x0c' || c = '\r'

/-- `re.sub` driven by a matcher: scan left to right; the matcher sees the
previous original character (for `\b`) and the remaining suffix and returns
the match length (`≥ 1`) with its replacement.  On a match, emit the
replacement and resume right after the matched text (replacements are never
rescanned); otherwise copy one character.  The fuel argument is the
remaining input length; every step consumes at least one character, so the
fuel never runs out before the input does. -/
def reSubAux (m : Option Char → List Char → Option (Nat × List Char)) :
    Nat → Option Char → List Char → List Char
  | 0, _, l => l
  | _ + 1, _, [] => []
  | fuel + 1, prev, c :: rest =>
    match m prev (c :: rest) with
    | some (len, repl) =>
        repl ++ reSubAux m fuel (some ((c :: rest).getD (len - 1) c)) (rest.drop (len - 1))
    | none => c :: reSubAux m fuel (some c) rest

def reSub (m : Option Char → List Char → Option (Nat × List Char))
    (s : List Char) : List Char :=
  reSubAux m s.length none s

/-- `[A-Za-z0-9._%+-]`, the local-part class of the email pattern. -/
def emailNameChar (c : Char) : Bool :=
  isAsciiLetter c || isAsciiDigit c || c = '.' || c = '_' || c = '%' || c = '+' || c = '-'

/-- `[A-Za-z0-9.-]`, the domain class of the email pattern. -/
def emailDomainChar (c : Char) : Bool :=
  isAsciiLetter c || isAsciiDigit c || c = '.' || c = '-'

/-- Length of the maximal ASCII-letter run starting at index `i`. -/
def lettersRunAt (s : List Char) (i : Nat) : Nat :=
  ((s.drop i).takeWhile isAsciiLetter).length

/-- Greedy backtracking for the email tail `[A-Za-z0-9.-]+\.[A-Za-z]{2,}`
after the `@`: try the largest class-run count first (`j` counts down from
the maximal run), require a literal dot next and at least two letters taken
greedily; returns the matched tail length. -/
def emailTailTry (s2 : List Char) : Nat → Option Nat
  | 0 => none
  | j + 1 =>
    if s2.getD (j + 1) ' ' = '.' then
      if 2 ≤ lettersRunAt s2 (j + 2) then some (j + 2 + lettersRunAt s2 (j + 2))
      else emailTailTry s2 j
    else emailTailTry s2 j

/-- Match of `[A-Za-z0-9._%+-]+@[A-Za-z0-9.-]+\.[A-Za-z]{2,}` at the head
of `s`; returns the match length. -/
def matchEmail (s : List Char) : Option Nat :=
  if (s.takeWhile emailNameChar).length = 0 then none
  else
    match s.drop (s.takeWhile emailNameChar).length with
    | '@' :: s2 =>
      match emailTailTry s2 (s2.takeWhile emailDomainChar).length with
      | some t => some ((s.takeWhile emailNameChar).length + 1 + t)
      | none => none
    | _ => none

/-- First index of a character (`str.find`, `none` for Python's `-1`). -/
def idxOfChar : List Char → Char → Option Nat
  | [], _ => none
  | x :: t, c => if x = c then some 0 else (idxOfChar t c).map (· + 1)

/-- `_mask_email` (`logger.py` lines 172-181): keep the first character of
the local part and of the first domain segment, star the rest. -/
def maskEmail (v : List Char) : List Char :=
  match idxOfChar v '@' with
  | none => "***@***".data
  | some i =>
    (if (v.take i).isEmpty then "***".data else (v.take i).take 1 ++ "***".data)
      ++ '@' ::
        (if (v.drop (i + 1)).isEmpty then "***".data
         else ((v.drop (i + 1)).takeWhile (fun c => ¬ c = '.')).take 1 ++ "***".data)

def emailMatcher (_prev : Option Char) (s : List Char) : Option (Nat × List Char) :=
  (matchEmail s).map (fun len => (len, maskEmail (s.take len)))

/-- `[\d\- ]`, the middle class of the phone pattern. -/
def phoneMidChar (c : Char) : Bool := isAsciiDigit c || c = '-' || c = ' '

/-- Greedy backtracking for `[\d\- ]{7,}\d\b` after the first digit: `rest`
is the text after the first digit; try the largest middle-run count first
(counting down, at least 7), require a digit right after it and a word
boundary after that digit. -/
def phoneTailTry (rest : List Char) : Nat → Option Nat
  | 0 => none
  | j + 1 =>
    if 7 ≤ j + 1 then
      if isAsciiDigit (rest.getD (j + 1) ' ')
          && !isWordOpt ((rest.drop (j + 2)).head?) then some (j + 1)
      else phoneTailTry rest j
    else none

/-- Match of `\b(\+?\d[\d\- ]{7,}\d)\b` at the head of `s` given the
previous character; returns the match length.  The optional `+` is taken
greedily; when the head is `+` but the rest fails, the alternative without
the `+` would require `\d` to match `+`, which fails, so no match. -/
def matchPhone (prev : Option Char) (s : List Char) : Option Nat :=
  match s with
  | '+' :: c0 :: rest2 =>
    if atBoundary prev '+' && isAsciiDigit c0 then
      match phoneTailTry rest2 (rest2.takeWhile phoneMidChar).length with
      | some j => some (1 + 1 + j + 1)
      | none => none
    else none
  | c0 :: rest2 =>
    if atBoundary prev c0 && isAsciiDigit c0 then
      match phoneTailTry rest2 (rest2.takeWhile phoneMidChar).length with
      | some j => some (1 + j + 1)
      | none => none
    else none
  | [] => none

/-- Replacement for a phone match: first three characters, stars, last two
(`m.group(0)[:3] + "***" + m.group(0)[-2:]`). -/
def maskPhone (v : List Char) : List Char :=
  v.take 3 ++ "***".data ++ v.drop (v.length - 2)

def phoneMatcher (prev : Option Char) (s : List Char) : Option (Nat × List Char) :=
  (matchPhone prev s).map (fun len => (len, maskPhone (s.take len)))

/-- ASCII lower-casing for the case-insensitive keyword alternation. -/
def toLowerAscii (c : Char) : Char :=
  if isAsciiUpper c then Char.ofNat (c.toNat + 32) else c

/-- Case-insensitive prefix test against a lowercase keyword. -/
def ciStartsWith : List Char → List Char → Bool
  | _, [] => true
  | [], _ :: _ => false
  | h :: t, n :: ns => toLowerAscii h = n && ciStartsWith t ns

/-- The keyword alternation `api[_-]?key|token|secret|password` (leftmost
alternative first, `[_-]?` greedy); returns the matched keyword length. -/
def matchSecretKeyword (s : List Char) : Option Nat :=
  if ciStartsWith s "api".data then
    match s.drop 3 with
    | c :: rest =>
      if (c = '_' || c = '-') && ciStartsWith rest "key".data then some 7
      else if ciStartsWith (s.drop 3) "key".data then some 6
      else none
    | [] => none
  else if ciStartsWith s "token".data then some 5
  else if ciStartsWith s "secret".data then some 6
  else if ciStartsWith s "password".data then some 8
  else none

/-- `[A-Za-z0-9\-_/]`, the value class of the secret pattern. -/
def secretValChar (c : Char) : Bool :=
  isAsciiLetter c || isAsciiDigit c || c = '-' || c = '_' || c = '/'

/-- Match of `(?i)\b(api[_-]?key|token|secret|password)\b\s*[:=]\s*([A-Za-z0-9\-_/]{8,})`
at the head of `s`; returns the total match length and the keyword length
(group 1). -/
def matchSecret (prev : Option Char) (s : List Char) : Option (Nat × Nat) :=
  match matchSecretKeyword s with
  | none => none
  | some kwLen =>
    match s.head? with
    | none => none
    | some c0 =>
      if atBoundary prev c0 && !isWordOpt ((s.drop kwLen).head?) then
        match (s.drop kwLen).drop (((s.drop kwLen).takeWhile isSpaceChar).length) with
        | sep :: rest =>
          if sep = ':' || sep = '=' then
            if 8 ≤ ((rest.drop ((rest.takeWhile isSpaceChar).length)).takeWhile secretValChar).length
            then some
              (kwLen + ((s.drop kwLen).takeWhile isSpaceChar).length + 1
                + (rest.takeWhile isSpaceChar).length
                + ((rest.drop ((rest.takeWhile isSpaceChar).length)).takeWhile secretValChar).length,
               kwLen)
            else none
          else none
        | [] => none
      else none

def secretMatcher (prev : Option Char) (s : List Char) : Option (Nat × List Char) :=
  (matchSecret prev s).map (fun r => (r.1, s.take r.2 ++ "=***".data))

/-- `_redact_text` (`logger.py` lines 154-193): the email pass, then the
phone/long-digit pass, then the secret `key=value` pass, in that order. -/
def redact_text (t : String) : String :=
  String.mk (reSub secretMatcher (reSub phoneMatcher (reSub emailMatcher t.data)))

/-- The `{"text_len", "preview"}` record built by `build_preview`. -/
structure Preview where
  text_len : Nat
  preview : String
deriving Repr, DecidableEq

/-- `build_preview` (`logger.py` lines 196-224): empty/None text yields an
empty preview; otherwise redact when enabled and truncate beyond
`max_chars` characters, appending a truncation marker. -/
def build_preview (text : Option String) (max_chars : Nat) (redact : Bool) : Preview :=
  match text with
  | none => ⟨0, ""⟩
  | some t =>
    if t = "" then ⟨0, ""⟩
    else
      if (if redact then redact_text t else t).length > max_chars then
        ⟨t.length, String.mk ((if redact then redact_text t else t).data.take max_chars)
          ++ "…(截断)"⟩
      else ⟨t.length, if redact then redact_text t else t⟩

/-- Texts of the `content.delta` events of a wire sequence, in emission
order (all deltas produced by this program are strings). -/
def deltaTexts (l : List WireEvent) : List String :=
  l.filterMap (fun e => match e with | .contentDelta (.s t) => some t | _ => none)

/-- Number of upstream events tagged `response.completed`. -/
def upCompletedCount (evs : List MockEvent) : Nat :=
  (evs.filter (fun e => e.type = "response.completed")).length

/-- The base64 strings carried by the `{"b64": ...}` chunk dicts. -/
def chunkB64s (ps : List Payload) : List String :=
  ps.filterMap (fun p => match p.get "b64" with | some (.s s) => some s | _ => none)

/-! ### Concrete fixtures used in counterexamples and witnesses -/

/-- A text stream whose iteration raises immediately (before yielding any
event), e.g. a transport failure on the first pull. -/
def raisingTextStream : TextStream := ⟨[], some "boom", none⟩

/-- A plain user message used to populate session histories. -/
def userMsgX : Message := ⟨"user", [⟨"text", "x"⟩]⟩

/-- Repeated `append` of a batch of messages at one time instant. -/
def appendFold (cfg : StoreCfg) (now : Nat) (sid : String) (st : Store)
    (ms : List Message) : Store :=
  ms.foldl (fun s m => SessionStore.append cfg s now sid m) st

/-- Strict ordering of event kinds within a wire sequence: every event
satisfying `p` occurs at a strictly earlier position than every event
satisfying `q`. -/
def allBefore (p q : WireEvent → Bool) (l : List WireEvent) : Prop :=
  ∀ (i j : Nat) (hi : i < l.length) (hj : j < l.length),
    p (l[i]) = true → q (l[j]) = true → i < j

/-! ### Helper lemmas about events and counts -/

theorem countEv_append (p : WireEvent → Bool) (l₁ l₂ : List WireEvent) :
    countEv p (l₁ ++ l₂) = countEv p l₁ + countEv p l₂ := by
  simp [countEv, List.filter_append]

theorem countEv_cons (p : WireEvent → Bool) (w : WireEvent) (l : List WireEvent) :
    countEv p (w :: l) = cond (p w) 1 0 + countEv p l := by
  simp only [countEv, List.filter_cons]
  cases p w <;> simp [Nat.add_comm]

theorem countEv_eq_zero {p : WireEvent → Bool} {l : List WireEvent}
    (h : ∀ e ∈ l, p e = false) : countEv p l = 0 := by
  simp only [countEv, List.length_eq_zero, List.filter_eq_nil_iff]
  intro a ha
  simp [h a ha]

/-- Case characterization of `processEvent`: it yields at most one event,
and that event is a delta, a start/stop passthrough, a usage event, or —
exactly when the upstream tag is `response.completed` — a forwarded
completion event. -/
theorem processEvent_cases (e : MockEvent) :
    (processEvent e = [] ∧ e.type ≠ "response.completed")
    ∨ (∃ t, processEvent e = [.contentDelta t] ∧ e.type ≠ "response.completed")
    ∨ (processEvent e = [.passthrough e.type e.data] ∧ e.type ≠ "response.completed")
    ∨ (processEvent e = [.usage e.data] ∧ e.type ≠ "response.completed")
    ∨ (processEvent e = [.completed e.data] ∧ e.type = "response.completed") := by
  have hnc : isDeltaType "response.completed" = false := by decide
  unfold processEvent processRest
  split
  · case isTrue hd =>
    have hne : e.type ≠ "response.completed" := by
      intro h; rw [h, hnc] at hd; exact absurd hd (by simp)
    split
    · exact Or.inr (Or.inl ⟨_, rfl, hne⟩)
    · split
      · exact Or.inr (Or.inr (Or.inl ⟨rfl, hne⟩))
      · split
        · exact Or.inr (Or.inr (Or.inr (Or.inl ⟨rfl, hne⟩)))
        · exact Or.inl ⟨rfl, hne⟩
  · split
    · case isTrue h =>
      have hne : e.type ≠ "response.completed" := by
        rcases Bool.or_eq_true_iff.mp h with h' | h' <;>
          · intro hc; rw [hc] at h'; exact absurd (of_decide_eq_true h') (by decide)
      exact Or.inr (Or.inr (Or.inl ⟨rfl, hne⟩))
    · split
      · case isTrue h =>
        exact Or.inr (Or.inr (Or.inr (Or.inl ⟨rfl, fun hc => by rw [hc] at h; exact absurd h (by decide)⟩)))
      · split
        · case isTrue h => exact Or.inr (Or.inr (Or.inr (Or.inr ⟨rfl, h⟩)))
        · case isFalse h => exact Or.inl ⟨rfl, h⟩

/-- Every event produced by `processEvent` is a delta, a passthrough, a
usage or a completion event — never a bookend, error or audio event. -/
theorem processEvent_shape (e : MockEvent) :
    ∀ w ∈ processEvent e,
      isCreated w = false ∧ isError w = false ∧ isAudioChunk w = false
        ∧ isAudioCompleted w = false := by
  intro w hw
  rcases processEvent_cases e with ⟨h, -⟩ | ⟨t, h, -⟩ | ⟨h, -⟩ | ⟨h, -⟩ | ⟨h, -⟩ <;>
    rw [h] at hw <;> simp only [List.mem_singleton, List.not_mem_nil] at hw <;>
    first
    | exact absurd hw (by simp)
    | (subst hw; exact ⟨rfl, rfl, rfl, rfl⟩)

/-- `processEvent` emits a `completed` wire event exactly for upstream
events tagged `response.completed` — which the loop forwards verbatim. -/
theorem processEvent_completed_count (e : MockEvent) :
    countEv isCompleted (processEvent e)
      = if e.type = "response.completed" then 1 else 0 := by
  rcases processEvent_cases e with ⟨h, hne⟩ | ⟨t, h, hne⟩ | ⟨h, hne⟩ | ⟨h, hne⟩ | ⟨h, he⟩ <;>
    rw [h] <;> simp [countEv, isCompleted, *]

/-- Events of the finalize step are usage events only. -/
theorem finalizeEvents_shape (fin : Option Payload) :
    ∀ w ∈ finalizeEvents fin, ∃ d, w = .usage d := by
  intro w hw
  unfold finalizeEvents at hw
  split at hw
  · simp at hw
  · split at hw
    · split at hw
      · simp only [List.mem_singleton] at hw; exact ⟨_, hw⟩
      · simp at hw
    · simp at hw

theorem flatMap_processEvent_completed_count (evs : List MockEvent) :
    countEv isCompleted (evs.flatMap processEvent) = upCompletedCount evs := by
  induction evs with
  | nil => rfl
  | cons e t ih =>
    simp only [List.flatMap_cons, countEv_append, ih,
      processEvent_completed_count, upCompletedCount, List.filter_cons]
    by_cases he : e.type = "response.completed" <;>
      simp [he, upCompletedCount, Nat.add_comm]

theorem flatMap_processEvent_zero {p : WireEvent → Bool} (evs : List MockEvent)
    (h : ∀ e w, w ∈ processEvent e → p w = false) :
    countEv p (evs.flatMap processEvent) = 0 := by
  refine countEv_eq_zero ?_
  intro w hw
  rw [List.mem_flatMap] at hw
  obtain ⟨e, _, hwe⟩ := hw
  exact h e w hwe

theorem finalizeEvents_zero {p : WireEvent → Bool} (fin : Option Payload)
    (h : ∀ d, p (.usage d) = false) :
    countEv p (finalizeEvents fin) = 0 := by
  refine countEv_eq_zero ?_
  intro w hw
  obtain ⟨d, rfl⟩ := finalizeEvents_shape fin w hw
  exact h d

theorem getLast?_append_single {α : Type} (l : List α) (a : α) :
    (l ++ [a]).getLast? = some a := by
  rw [List.getLast?_append_cons]; rfl

/-! ### Lemmas about `stream_generator` and `stream_with_voice` -/

theorem sg_created_count (s : TextStream) (rid : String) (sid : Option String) :
    countEv isCreated (stream_generator s rid sid) = 1 := by
  have hflat : countEv isCreated (s.events.flatMap processEvent) = 0 :=
    flatMap_processEvent_zero _ (fun e w hw => (processEvent_shape e w hw).1)
  have hfin : countEv isCreated (finalizeEvents s.finalResponse) = 0 :=
    finalizeEvents_zero _ (fun _ => rfl)
  unfold stream_generator
  cases hr : s.raises <;>
    simp only [countEv_cons, countEv_append, hflat, hfin] <;> rfl

theorem sg_head (s : TextStream) (rid : String) (sid : Option String) :
    (stream_generator s rid sid).head? = some (.created rid sid) := by
  unfold stream_generator
  rfl

theorem sg_error_count (s : TextStream) (rid : String) (sid : Option String) :
    countEv isError (stream_generator s rid sid)
      = if s.raises.isSome then 1 else 0 := by
  have hflat : countEv isError (s.events.flatMap processEvent) = 0 :=
    flatMap_processEvent_zero _ (fun e w hw => (processEvent_shape e w hw).2.1)
  have hfin : countEv isError (finalizeEvents s.finalResponse) = 0 :=
    finalizeEvents_zero _ (fun _ => rfl)
  unfold stream_generator
  cases hr : s.raises <;>
    simp only [countEv_cons, countEv_append, hflat, hfin, Option.isSome_some,
      Option.isSome_none, if_true, if_false] <;> rfl

theorem sg_completed_count (s : TextStream) (rid : String) (sid : Option String) :
    countEv isCompleted (stream_generator s rid sid)
      = upCompletedCount s.events + (if s.raises.isSome then 0 else 1) := by
  have hflat := flatMap_processEvent_completed_count s.events
  have hfin : countEv isCompleted (finalizeEvents s.finalResponse) = 0 :=
    finalizeEvents_zero _ (fun _ => rfl)
  unfold stream_generator
  cases hr : s.raises <;>
    simp only [countEv_cons, countEv_append, hflat, hfin] <;>
    simp [countEv, isCompleted]

theorem sg_last_of_raises {s : TextStream} (rid : String) (sid : Option String)
    {m : String} (h : s.raises = some m) :
    (stream_generator s rid sid).getLast? = some (.error m) := by
  unfold stream_generator
  rw [h]
  rw [show WireEvent.created rid sid :: (s.events.flatMap processEvent ++ [.error m])
      = (WireEvent.created rid sid :: s.events.flatMap processEvent) ++ [.error m] by simp]
  exact getLast?_append_single _ _

theorem sg_last_of_ok {s : TextStream} (rid : String) (sid : Option String)
    (h : s.raises = none) :
    (stream_generator s rid sid).getLast? = some (.completed []) := by
  unfold stream_generator
  rw [h]
  rw [show WireEvent.created rid sid ::
        (s.events.flatMap processEvent ++ finalizeEvents s.finalResponse ++ [.completed []])
      = (WireEvent.created rid sid ::
          (s.events.flatMap processEvent ++ finalizeEvents s.finalResponse)) ++ [.completed []] by simp]
  exact getLast?_append_single _ _

/-- `stream_generator` output never contains audio events. -/
theorem sg_no_audio (s : TextStream) (rid : String) (sid : Option String) :
    ∀ w ∈ stream_generator s rid sid,
      isAudioChunk w = false ∧ isAudioCompleted w = false := by
  intro w hw
  unfold stream_generator at hw
  have hmain : ∀ w', w' ∈ s.events.flatMap processEvent →
      isAudioChunk w' = false ∧ isAudioCompleted w' = false := by
    intro w' hw'
    rw [List.mem_flatMap] at hw'
    obtain ⟨e, _, hwe⟩ := hw'
    exact ⟨(processEvent_shape e w' hwe).2.2.1, (processEvent_shape e w' hwe).2.2.2⟩
  cases hr : s.raises <;> rw [hr] at hw <;> simp only [List.mem_cons, List.mem_append] at hw
  · rcases hw with rfl | (hw | hw) | hw
    · exact ⟨rfl, rfl⟩
    · exact hmain w hw
    · obtain ⟨d, rfl⟩ := finalizeEvents_shape _ w hw
      exact ⟨rfl, rfl⟩
    · rcases hw with rfl | hw
      · exact ⟨rfl, rfl⟩
      · exact absurd hw (List.not_mem_nil w)
  · rcases hw with rfl | hw | hw
    · exact ⟨rfl, rfl⟩
    · exact hmain w hw
    · rcases hw with rfl | hw
      · exact ⟨rfl, rfl⟩
      · exact absurd hw (List.not_mem_nil w)

/-- Explicit form of the event sequence produced by `stream_with_voice`. -/
theorem swv_events (ts : TextStream) (audio : AudioStream)
    (voiceId : Option String) (rid : String) (sid : Option String) :
    (stream_with_voice ts audio voiceId rid sid).1 =
      stream_generator ts rid sid ++
        (if strTruthy voiceId then
          audio.chunks.map WireEvent.audioChunk ++
            (match audio.raises with
             | some _ => []
             | none => [WireEvent.audioCompleted (voiceId.getD "") (pyOrStr sid rid)])
         else []) := by
  unfold stream_with_voice
  cases hv : strTruthy voiceId <;> cases ha : audio.raises <;>
    first
    | rfl
    | simp [hv, ha]

/-- `stream_with_voice` aborts exactly when the audio stage runs and its
iteration raises. -/
theorem swv_aborted (ts : TextStream) (audio : AudioStream)
    (voiceId : Option String) (rid : String) (sid : Option String) :
    (stream_with_voice ts audio voiceId rid sid).2
      = (strTruthy voiceId && audio.raises.isSome) := by
  unfold stream_with_voice
  cases hv : strTruthy voiceId <;> cases ha : audio.raises <;> rfl

/-! ### Base64 and UTF-8 lemmas for the mock audio source -/

theorem b64Val_b64Char : ∀ n, n < 64 → b64Val (b64Char n) = n := by decide

theorem b64Char_ne_pad : ∀ n, n < 64 → b64Char n ≠ '=' := by decide

/-- Decoding inverts encoding on byte lists (bytes below 256). -/
theorem b64_roundtrip (bs : List Nat) (h : ∀ x ∈ bs, x < 256) :
    b64DecodeBytes (b64EncodeBytes bs) = bs := by
  induction bs using b64EncodeBytes.induct with
  | case1 => rfl
  | case2 a =>
    have ha : a < 256 := h a (by simp)
    show b64DecodeBytes [b64Char (a / 4), b64Char (a % 4 * 16), '=', '='] = [a]
    unfold b64DecodeBytes
    rw [if_pos rfl, b64Val_b64Char _ (by omega), b64Val_b64Char _ (by omega)]
    simp only [List.cons.injEq, and_true]
    omega
  | case3 a b =>
    have ha : a < 256 := h a (by simp)
    have hb : b < 256 := h b (by simp)
    show b64DecodeBytes
        [b64Char (a / 4), b64Char (a % 4 * 16 + b / 16), b64Char (b % 16 * 4), '='] = [a, b]
    unfold b64DecodeBytes
    rw [if_neg (b64Char_ne_pad _ (by omega)), if_pos rfl,
      b64Val_b64Char _ (by omega), b64Val_b64Char _ (by omega), b64Val_b64Char _ (by omega)]
    simp only [List.cons.injEq, and_true]
    omega
  | case4 a b c rest ih =>
    have ha : a < 256 := h a (by simp)
    have hb : b < 256 := h b (by simp)
    have hc : c < 256 := h c (by simp)
    have hrest : ∀ x ∈ rest, x < 256 := fun x hx => h x (by simp [hx])
    show b64DecodeBytes
        ([b64Char (a / 4), b64Char (a % 4 * 16 + b / 16), b64Char (b % 16 * 4 + c / 64),
          b64Char (c % 64)] ++ b64EncodeBytes rest) = a :: b :: c :: rest
    simp only [List.cons_append, List.nil_append]
    unfold b64DecodeBytes
    rw [if_neg (b64Char_ne_pad _ (by omega)), if_neg (b64Char_ne_pad _ (by omega)),
      b64Val_b64Char _ (by omega), b64Val_b64Char _ (by omega),
      b64Val_b64Char _ (by omega), b64Val_b64Char _ (by omega), ih hrest]
    simp only [List.cons_append, List.nil_append, List.cons.injEq, and_true, true_and]
    omega

/-- The windows of `VoiceMockStream` concatenate back to the input bytes. -/
theorem windowChunksAux_flatten (cs : Nat) (hcs : 0 < cs) :
    ∀ (fuel : Nat) (data : List Nat), data.length ≤ fuel →
      (windowChunksAux cs fuel data).flatten = data := by
  intro fuel
  induction fuel with
  | zero =>
    intro data hd
    cases data with
    | nil => rfl
    | cons d ds => simp at hd
  | succ n ih =>
    intro data hd
    cases data with
    | nil => rfl
    | cons d ds =>
      show ((d :: ds).take cs :: windowChunksAux cs n (ds.drop (cs - 1))).flatten = d :: ds
      rw [List.flatten_cons, ih (ds.drop (cs - 1)) (by simp [List.length_drop] at hd ⊢; omega)]
      have hdrop : (d :: ds).drop cs = ds.drop (cs - 1) := by
        cases cs with
        | zero => omega
        | succ k => simp
      rw [← hdrop, List.take_append_drop]

/-- Every byte of every window comes from the input byte list. -/
theorem windowChunksAux_mem (cs : Nat) :
    ∀ (fuel : Nat) (data w : List Nat), w ∈ windowChunksAux cs fuel data →
      ∀ x ∈ w, x ∈ data := by
  intro fuel
  induction fuel with
  | zero =>
    intro data w hw
    cases data with
    | nil => simp [windowChunksAux] at hw
    | cons d ds => simp [windowChunksAux] at hw
  | succ n ih =>
    intro data w hw
    cases data with
    | nil => simp [windowChunksAux] at hw
    | cons d ds =>
      rw [show windowChunksAux cs (n + 1) (d :: ds)
          = (d :: ds).take cs :: windowChunksAux cs n (ds.drop (cs - 1)) from rfl,
        List.mem_cons] at hw
      rcases hw with rfl | hw
      · exact fun x hx => List.take_subset cs (d :: ds) hx
      · intro x hx
        have := ih (ds.drop (cs - 1)) w hw x hx
        exact List.mem_cons_of_mem d (List.drop_subset (cs - 1) ds this)

/-- Every window has at most `cs` bytes (the window size). -/
theorem windowChunksAux_length (cs : Nat) :
    ∀ (fuel : Nat) (data w : List Nat), w ∈ windowChunksAux cs fuel data →
      w.length ≤ cs := by
  intro fuel
  induction fuel with
  | zero =>
    intro data w hw
    cases data with
    | nil => simp [windowChunksAux] at hw
    | cons d ds => simp [windowChunksAux] at hw
  | succ n ih =>
    intro data w hw
    cases data with
    | nil => simp [windowChunksAux] at hw
    | cons d ds =>
      rw [show windowChunksAux cs (n + 1) (d :: ds)
          = (d :: ds).take cs :: windowChunksAux cs n (ds.drop (cs - 1)) from rfl,
        List.mem_cons] at hw
      rcases hw with rfl | hw
      · exact List.length_take_le cs (d :: ds)
      · exact ih (ds.drop (cs - 1)) w hw

/-- Every byte the UTF-8 encoder produces is below 256. -/
theorem utf8EncodeCharNat_lt_256 (c : Char) : ∀ x ∈ utf8EncodeCharNat c, x < 256 := by
  have hval : c.toNat = c.val.toNat := rfl
  have hc : c.toNat < 1114112 := by
    rcases c.valid with h | ⟨h1, h2⟩ <;> omega
  intro x hx
  unfold utf8EncodeCharNat at hx
  split at hx
  · simp at hx; omega
  · split at hx
    · simp at hx; omega
    · split at hx <;> simp at hx <;> omega

theorem utf8Bytes_lt_256 (s : String) : ∀ x ∈ utf8Bytes s, x < 256 := by
  intro x hx
  rw [utf8Bytes, List.mem_flatMap] at hx
  obtain ⟨c, -, hxc⟩ := hx
  exact utf8EncodeCharNat_lt_256 c x hxc

/-! ### Lemmas about the session store -/

theorem lookup_insert_self (st : Store) (sid : String) (r : SessionRecord) :
    (st.insert sid r).lookup sid = some r := by
  simp [Store.insert, Store.lookup, List.find?]

theorem lookup_erase_self (st : Store) (sid : String) :
    (st.erase sid).lookup sid = none := by
  unfold Store.erase Store.lookup
  have h : (st.filter (fun e => ¬ e.1 = sid)).find? (fun e => e.1 = sid) = none := by
    rw [List.find?_eq_none]
    intro x hx
    rw [List.mem_filter] at hx
    simpa using hx.2
  rw [h]
  rfl

/-- The record is never expired against its own write time. -/
theorem isExpired_now_now (cfg : StoreCfg) (now : Nat) :
    cfg.isExpired now now = false := by
  simp [StoreCfg.isExpired]

theorem trimWindow_length_le (n : Nat) (hn : 0 < n) (l : List Message) :
    (trimWindow n l).length ≤ n := by
  unfold trimWindow
  split
  · rw [if_neg (by omega)]
    simp only [List.length_drop]
    omega
  · omega

theorem trimWindow_eq_self {n : Nat} {l : List Message} (h : l.length ≤ n) :
    trimWindow n l = l := by
  unfold trimWindow
  rw [if_neg (by omega)]

/-- Trimming, appending more, and trimming again is the same as trimming
once at the end: the trim only ever discards entries that a later trim
would discard anyway. -/
theorem trimWindow_trim_append (n : Nat) (hn : 0 < n) (l ms : List Message) :
    trimWindow n (trimWindow n l ++ ms) = trimWindow n (l ++ ms) := by
  by_cases hl : l.length ≤ n
  · rw [trimWindow_eq_self hl]
  · have htl : trimWindow n l = l.drop (l.length - n) := by
      unfold trimWindow
      rw [if_pos (by omega), if_neg (by omega)]
    have hlen : (l.drop (l.length - n)).length = n := by
      rw [List.length_drop]; omega
    rw [htl]
    by_cases hms : ms = []
    · subst hms
      rw [List.append_nil, List.append_nil, trimWindow_eq_self (le_of_eq hlen), htl]
    · have hm : 0 < ms.length := List.length_pos.mpr hms
      have hL : (l.drop (l.length - n) ++ ms).length = n + ms.length := by
        simp [hlen]
      have hR : (l ++ ms).length = l.length + ms.length := by simp
      unfold trimWindow
      rw [if_pos (by omega), if_neg (by omega), if_pos (by omega), if_neg (by omega)]
      rw [hL, hR]
      have e1 : n + ms.length - n = ms.length := by omega
      have e2 : l.length + ms.length - n = (l.length - n) + ms.length := by omega
      rw [e1, e2]
      have hdle : l.length - n ≤ l.length := by omega
      rw [← List.drop_append_of_le_length hdle, List.drop_drop]

/-- `get` on a live (unexpired) record returns the stored messages and
leaves the store unchanged. -/
theorem get_of_live (cfg : StoreCfg) (st : Store) (now : Nat) (sid : String)
    (rec : SessionRecord) (hl : st.lookup sid = some rec)
    (hx : cfg.isExpired now rec.ts = false) :
    SessionStore.get cfg st now sid = (rec.messages, st) := by
  unfold SessionStore.get
  rw [hl]
  simp [hx]

/-- `append` on a live (unexpired) record: the stored history becomes the
trimmed extension, with refreshed timestamp. -/
theorem append_lookup_live (cfg : StoreCfg) (st : Store) (now : Nat)
    (sid : String) (m : Message) (rec : SessionRecord)
    (hl : st.lookup sid = some rec) (hx : cfg.isExpired now rec.ts = false) :
    (SessionStore.append cfg st now sid m).lookup sid
      = some ⟨trimWindow (cfg.max_rounds * 2) (rec.messages ++ [m]), now⟩ := by
  unfold SessionStore.append SessionStore.get
  rw [hl]
  simp only [hx, Bool.false_eq_true, if_false]
  exact lookup_insert_self _ _ _

/-- `append` on an absent key starts a fresh singleton history. -/
theorem append_lookup_absent (cfg : StoreCfg) (st : Store) (now : Nat)
    (sid : String) (m : Message) (hl : st.lookup sid = none) :
    (SessionStore.append cfg st now sid m).lookup sid
      = some ⟨trimWindow (cfg.max_rounds * 2) [m], now⟩ := by
  unfold SessionStore.append SessionStore.get
  rw [hl]
  exact lookup_insert_self _ _ _

theorem appendFold_lookup (cfg : StoreCfg) (now : Nat) (sid : String) :
    ∀ (ms : List Message) (st : Store) (h : List Message),
      st.lookup sid = some ⟨h, now⟩ →
      (appendFold cfg now sid st ms).lookup sid
        = some ⟨ms.foldl (fun acc m => trimWindow (cfg.max_rounds * 2) (acc ++ [m])) h, now⟩ := by
  intro ms
  induction ms with
  | nil => intro st h hl; exact hl
  | cons m t ih =>
    intro st h hl
    have step := append_lookup_live cfg st now sid m ⟨h, now⟩ hl (isExpired_now_now cfg now)
    exact ih _ _ step

theorem foldl_trim_eq (n : Nat) (hn : 0 < n) :
    ∀ (ms h : List Message), h.length ≤ n →
      ms.foldl (fun acc m => trimWindow n (acc ++ [m])) h = trimWindow n (h ++ ms) := by
  intro ms
  induction ms with
  | nil => intro h hh; rw [List.append_nil, trimWindow_eq_self hh]; rfl
  | cons m t ih =>
    intro h hh
    rw [List.foldl_cons, ih _ (trimWindow_length_le n hn _),
      trimWindow_trim_append n hn, List.append_assoc]
    rfl

/-! ### Claim theorems for the session store -/

/-- C5: after any completed `append` or `set`, the stored history length is
at most `max_rounds * 2` (20 with the defaults); and after
`2*maxRounds + k` appends (k > 0) into a fresh key, the stored history is
exactly the most recent `2*maxRounds` messages, in their original relative
order (the oldest `k` dropped first). -/
theorem claim_C5_window_bound (cfg : StoreCfg) (hn : 0 < cfg.max_rounds) :
    (∀ (st : Store) (now : Nat) (sid : String) (m : Message) (r : SessionRecord),
        (SessionStore.append cfg st now sid m).lookup sid = some r →
        r.messages.length ≤ cfg.max_rounds * 2)
    ∧ (∀ (st : Store) (now : Nat) (sid : String) (msgs : List Message) (r : SessionRecord),
        (SessionStore.set cfg st now sid msgs).lookup sid = some r →
        r.messages.length ≤ cfg.max_rounds * 2)
    ∧ (∀ (st : Store) (now : Nat) (sid : String) (ms : List Message) (k : Nat),
        st.lookup sid = none → 0 < k → ms.length = cfg.max_rounds * 2 + k →
        (appendFold cfg now sid st ms).lookup sid = some ⟨ms.drop k, now⟩
          ∧ (ms.drop k).length = cfg.max_rounds * 2) := by
  have h2 : 0 < cfg.max_rounds * 2 := by omega
  refine ⟨?_, ?_, ?_⟩
  · intro st now sid m r hr
    unfold SessionStore.append at hr
    rw [lookup_insert_self] at hr
    cases hr
    exact trimWindow_length_le _ h2 _
  · intro st now sid msgs r hr
    unfold SessionStore.set at hr
    rw [lookup_insert_self] at hr
    cases hr
    exact trimWindow_length_le _ h2 _
  · intro st now sid ms k hnone hk hlen
    cases ms with
    | nil => simp at hlen; omega
    | cons m t =>
      have hfirst := append_lookup_absent cfg st now sid m hnone
      have htrim1 : trimWindow (cfg.max_rounds * 2) [m] = [m] :=
        trimWindow_eq_self (by simp; omega)
      rw [htrim1] at hfirst
      have hfold := appendFold_lookup cfg now sid t _ [m] hfirst
      have : appendFold cfg now sid st (m :: t)
          = appendFold cfg now sid (SessionStore.append cfg st now sid m) t := rfl
      rw [this, hfold, foldl_trim_eq _ h2 _ _ (by simp; omega)]
      have hgt : ([m] ++ t).length > cfg.max_rounds * 2 := by
        simp at hlen ⊢; omega
      have : trimWindow (cfg.max_rounds * 2) ([m] ++ t) = (m :: t).drop k := by
        unfold trimWindow
        rw [if_pos (by simpa using hgt), if_neg (by omega)]
        simp only [List.singleton_append]
        congr 1
        simp at hlen ⊢
        omega
      rw [this]
      refine ⟨rfl, ?_⟩
      simp only [List.length_drop]
      omega

/-- C5 witness: with the defaults (maxRounds 10), appending 21 messages into
a fresh key leaves exactly the most recent 20. -/
theorem claim_C5_window_bound_witness :
    (appendFold defaultCfg 0 "s" [] (List.replicate 21 userMsgX)).lookup "s"
        = some ⟨(List.replicate 21 userMsgX).drop 1, 0⟩
      ∧ ((List.replicate 21 userMsgX).drop 1).length = defaultCfg.max_rounds * 2 :=
  (claim_C5_window_bound defaultCfg (by decide)).2.2 [] 0 "s"
    (List.replicate 21 userMsgX) 1 rfl (by decide) (by decide)

/-- C6: `get(key)` returns the empty sequence on an unknown key; on an
expired record it returns the empty sequence, deletes the record as a side
effect, and the key is absent from the resulting store; on a live record it
returns the stored messages and leaves the store unchanged. -/
theorem claim_C6_get_contract (cfg : StoreCfg) (st : Store) (now : Nat) (sid : String) :
    (st.lookup sid = none → SessionStore.get cfg st now sid = ([], st))
    ∧ (∀ rec, st.lookup sid = some rec → cfg.isExpired now rec.ts = true →
        SessionStore.get cfg st now sid = ([], st.erase sid)
          ∧ ((SessionStore.get cfg st now sid).2).lookup sid = none)
    ∧ (∀ rec, st.lookup sid = some rec → cfg.isExpired now rec.ts = false →
        SessionStore.get cfg st now sid = (rec.messages, st)) := by
  refine ⟨?_, ?_, ?_⟩
  · intro h
    unfold SessionStore.get
    rw [h]
  · intro rec hl hx
    have hget : SessionStore.get cfg st now sid = ([], st.erase sid) := by
      unfold SessionStore.get
      rw [hl]
      simp [hx]
    exact ⟨hget, by rw [hget]; exact lookup_erase_self st sid⟩
  · intro rec hl hx
    unfold SessionStore.get
    rw [hl]
    simp [hx]

/-- C6 witness: a record written at time 0 and read at time 7201 (past the
default 7200-second TTL) reads as empty and is deleted; at time 7200 it is
still returned intact. -/
theorem claim_C6_get_contract_witness :
    (SessionStore.get defaultCfg [("s", ⟨[userMsgX], 0⟩)] 7201 "s"
        = ([], Store.erase [("s", ⟨[userMsgX], 0⟩)] "s")
      ∧ ((SessionStore.get defaultCfg [("s", ⟨[userMsgX], 0⟩)] 7201 "s").2).lookup "s" = none)
    ∧ SessionStore.get defaultCfg [("s", ⟨[userMsgX], 0⟩)] 7200 "s"
        = ([userMsgX], [("s", ⟨[userMsgX], 0⟩)]) :=
  ⟨(claim_C6_get_contract defaultCfg [("s", ⟨[userMsgX], 0⟩)] 7201 "s").2.1
      ⟨[userMsgX], 0⟩ rfl (by decide),
   (claim_C6_get_contract defaultCfg [("s", ⟨[userMsgX], 0⟩)] 7200 "s").2.2
      ⟨[userMsgX], 0⟩ rfl (by decide)⟩

/-! ### Bridge lemmas from `chat_stream_post` to `stream_with_voice` -/

theorem csp_events (cfg : StoreCfg) (st : Store) (now now2 : Nat)
    (body : ChatStreamBody) (hdr qry : Option String) (ts : TextStream)
    (audio : AudioStream) (rid : String) :
    (chat_stream_post cfg st now now2 body hdr qry ts audio rid).events
      = (stream_with_voice ts audio (pyOrOpt hdr qry) rid body.sessionId).1 := rfl

theorem csp_aborted (cfg : StoreCfg) (st : Store) (now now2 : Nat)
    (body : ChatStreamBody) (hdr qry : Option String) (ts : TextStream)
    (audio : AudioStream) (rid : String) :
    (chat_stream_post cfg st now now2 body hdr qry ts audio rid).aborted
      = (stream_with_voice ts audio (pyOrOpt hdr qry) rid body.sessionId).2 := rfl

/-- The audio tail of the event stream contains only audio events. -/
theorem countEv_audio_tail_zero {p : WireEvent → Bool} (audio : AudioStream)
    (voiceId : Option String) (rid : String) (sid : Option String)
    (hc : ∀ d, p (.audioChunk d) = false)
    (ha : ∀ v s, p (.audioCompleted v s) = false) :
    countEv p (if strTruthy voiceId then
          audio.chunks.map WireEvent.audioChunk ++
            (match audio.raises with
             | some _ => []
             | none => [WireEvent.audioCompleted (voiceId.getD "") (pyOrStr sid rid)])
         else []) = 0 := by
  refine countEv_eq_zero ?_
  intro e he
  split at he
  · rw [List.mem_append] at he
    rcases he with he | he
    · rw [List.mem_map] at he
      obtain ⟨d, -, rfl⟩ := he
      exact hc d
    · split at he
      · exact absurd he (List.not_mem_nil e)
      · rw [List.mem_singleton] at he
        subst he
        exact ha _ _
  · exact absurd he (List.not_mem_nil e)

/-- Every event of the audio tail is an `audio.chunk` or `audio.completed`. -/
theorem audio_tail_shape (audio : AudioStream) (voiceId : Option String)
    (rid : String) (sid : Option String) :
    ∀ e ∈ (if strTruthy voiceId then
          audio.chunks.map WireEvent.audioChunk ++
            (match audio.raises with
             | some _ => []
             | none => [WireEvent.audioCompleted (voiceId.getD "") (pyOrStr sid rid)])
         else []),
      (∃ d, e = .audioChunk d) ∨ (∃ v s, e = .audioCompleted v s) := by
  intro e he
  split at he
  · rw [List.mem_append] at he
    rcases he with he | he
    · rw [List.mem_map] at he
      obtain ⟨d, -, rfl⟩ := he
      exact Or.inl ⟨d, rfl⟩
    · split at he
      · exact absurd he (List.not_mem_nil e)
      · rw [List.mem_singleton] at he
        subst he
        exact Or.inr ⟨_, _, rfl⟩
  · exact absurd he (List.not_mem_nil e)

/-! ### Claim theorems for the streams -/

/-- C9: for a request processed in simulated mode, the `content.delta` wire
events are exactly one single-character event per character of the canned
simulated reply, in order, and their concatenation reproduces the canned
reply character-for-character — both at the text-stream level and for the
full event stream of a `POST /chat/stream` request. -/
theorem claim_C9_mock_delta_concat (requestId : String) (sessionId : Option String) :
    deltaTexts (stream_generator (mockTextStream MOCK_REPLY) requestId sessionId)
        = MOCK_REPLY.data.map String.singleton
      ∧ String.mk ((deltaTexts (stream_generator (mockTextStream MOCK_REPLY)
            requestId sessionId)).flatMap String.data)
        = MOCK_REPLY
      ∧ (∀ (cfg : StoreCfg) (st : Store) (now now2 : Nat) (body : ChatStreamBody)
          (hdr qry : Option String) (audio : AudioStream),
          deltaTexts ((chat_stream_post cfg st now now2 body hdr qry
              (mockTextStream MOCK_REPLY) audio requestId).events)
            = MOCK_REPLY.data.map String.singleton) := by
  refine ⟨rfl, rfl, ?_⟩
  intro cfg st now now2 body hdr qry audio
  rw [csp_events, swv_events]
  rw [show ∀ (a b : List WireEvent), deltaTexts (a ++ b) = deltaTexts a ++ deltaTexts b
    from fun a b => List.filterMap_append a b _]
  rw [show deltaTexts (stream_generator (mockTextStream MOCK_REPLY) requestId body.sessionId)
      = MOCK_REPLY.data.map String.singleton from rfl]
  have h2 : deltaTexts (if strTruthy (pyOrOpt hdr qry) then
        audio.chunks.map WireEvent.audioChunk ++
          (match audio.raises with
           | some _ => []
           | none => [WireEvent.audioCompleted ((pyOrOpt hdr qry).getD "")
               (pyOrStr body.sessionId requestId)])
       else []) = [] := by
    rw [deltaTexts, List.filterMap_eq_nil_iff]
    intro e he
    rcases audio_tail_shape audio (pyOrOpt hdr qry) requestId body.sessionId e he with
      ⟨d, rfl⟩ | ⟨v, s, rfl⟩ <;> rfl
  rw [h2, List.append_nil]

/-- C1 counterexample: in simulated mode the upstream `MockStream` itself
emits a `response.completed` event, which `stream_generator` forwards
(`main.py` line 138) in addition to its own final `response.completed`
(`main.py` line 166) — so this concrete valid request produces two events
from {`response.completed`, `response.error`}, not exactly one. -/
theorem claim_C1_counterexample :
    countEv (fun e => isCompleted e || isError e)
        ((chat_stream_post defaultCfg [] 0 0 ⟨"你好", some "s", none⟩ none none
            (mockTextStream MOCK_REPLY) (voiceMockAudio "你好") "req-1").events) = 2
      ∧ ¬ countEv (fun e => isCompleted e || isError e)
          ((chat_stream_post defaultCfg [] 0 0 ⟨"你好", some "s", none⟩ none none
              (mockTextStream MOCK_REPLY) (voiceMockAudio "你好") "req-1").events) = 1 := by
  constructor
  · rfl
  · decide

/-- C2 counterexample: when the text stream raises and a voice identifier
is supplied, the caught exception produces a single `response.error`, but
`stream_with_voice` then still runs the audio stage — an `audio.completed`
(preceded by whatever chunks the audio source yields; none in simulated
mode) is emitted after the error event, so the error is not terminal. -/
theorem claim_C2_counterexample :
    countEv isError ((chat_stream_post defaultCfg [] 0 0 ⟨"hi", some "s", none⟩
        (some "v") none raisingTextStream (voiceMockAudio "hi") "r").events) = 1
      ∧ ((chat_stream_post defaultCfg [] 0 0 ⟨"hi", some "s", none⟩
            (some "v") none raisingTextStream (voiceMockAudio "hi") "r").events).get? 1
          = some (.error "boom")
      ∧ ((chat_stream_post defaultCfg [] 0 0 ⟨"hi", some "s", none⟩
            (some "v") none raisingTextStream (voiceMockAudio "hi") "r").events).getLast?
          = some (.audioCompleted "v" "s")
      ∧ 2 < ((chat_stream_post defaultCfg [] 0 0 ⟨"hi", some "s", none⟩
            (some "v") none raisingTextStream (voiceMockAudio "hi") "r").events).length :=
  ⟨rfl, rfl, rfl, by decide⟩

/-- C3 counterexample: a request whose text stream raises ends in the
Errored state (`response.error` is its last wire event), yet the
placeholder assistant turn is still appended to the session cache, because
`stream_generator` swallows the exception and `run_stream` reaches the
`session_store.append` call (`main.py` line 294). -/
theorem claim_C3_counterexample :
    countEv isError ((chat_stream_post defaultCfg [] 0 0 ⟨"hi", some "s", none⟩
        none none raisingTextStream (voiceMockAudio "hi") "r").events) = 1
      ∧ ((chat_stream_post defaultCfg [] 0 0 ⟨"hi", some "s", none⟩
            none none raisingTextStream (voiceMockAudio "hi") "r").events).getLast?
          = some (.error "boom")
      ∧ Store.lookup ((chat_stream_post defaultCfg [] 0 0 ⟨"hi", some "s", none⟩
            none none raisingTextStream (voiceMockAudio "hi") "r").store) "s"
          = some ⟨[placeholderMsg], 0⟩
      ∧ ¬ ((chat_stream_post defaultCfg [] 0 0 ⟨"hi", some "s", none⟩
            none none raisingTextStream (voiceMockAudio "hi") "r").store) = ([] : Store) :=
  ⟨rfl, rfl, rfl, by decide⟩

/-- C10 counterexample: when the stored history is already at the
`2 * maxRounds` cap (20 messages), the post-stream append of the
placeholder drops the oldest entry, so the stored history does not grow by
one message — it stays at 20 and is not `old ++ [placeholder]`. -/
theorem claim_C10_counterexample :
    (Store.lookup ((chat_stream_post defaultCfg
            [("s", ⟨List.replicate 20 userMsgX, 0⟩)] 0 0 ⟨"hi", some "s", none⟩
            none none (mockTextStream MOCK_REPLY) (voiceMockAudio "hi") "r").store)
          "s").map SessionRecord.messages
        = some (List.replicate 19 userMsgX ++ [placeholderMsg])
      ∧ ¬ (Store.lookup ((chat_stream_post defaultCfg
              [("s", ⟨List.replicate 20 userMsgX, 0⟩)] 0 0 ⟨"hi", some "s", none⟩
              none none (mockTextStream MOCK_REPLY) (voiceMockAudio "hi") "r").store)
            "s").map SessionRecord.messages
          = some (List.replicate 20 userMsgX ++ [placeholderMsg]) := by
  constructor
  · decide
  · decide

/-- C1 (amended): every response stream starts with exactly one
`response.created` (its first event); `response.error` appears exactly when
the text stream raises (and then once); the stream always closes with a
terminal `response.completed` (normal exhaustion) or `response.error`
(text-stream failure) when no voice stage runs; but the number of
`response.completed` events equals the number of upstream
`response.completed` events the loop forwards plus one for the generator's
own final event on the success path — two in simulated mode, not one. -/
theorem claim_C1_amended (cfg : StoreCfg) (st : Store) (now now2 : Nat)
    (body : ChatStreamBody) (hdr qry : Option String) (ts : TextStream)
    (audio : AudioStream) (rid : String) :
    countEv isCreated (chat_stream_post cfg st now now2 body hdr qry ts audio rid).events = 1
    ∧ (chat_stream_post cfg st now now2 body hdr qry ts audio rid).events.head?
        = some (.created rid body.sessionId)
    ∧ countEv isError (chat_stream_post cfg st now now2 body hdr qry ts audio rid).events
        = (if ts.raises.isSome then 1 else 0)
    ∧ countEv isCompleted (chat_stream_post cfg st now now2 body hdr qry ts audio rid).events
        = upCompletedCount ts.events + (if ts.raises.isSome then 0 else 1)
    ∧ (strTruthy (pyOrOpt hdr qry) = false →
        (ts.raises = none →
          (chat_stream_post cfg st now now2 body hdr qry ts audio rid).events.getLast?
            = some (.completed []))
        ∧ (∀ m, ts.raises = some m →
          (chat_stream_post cfg st now now2 body hdr qry ts audio rid).events.getLast?
            = some (.error m))) := by
  rw [csp_events, swv_events]
  refine ⟨?_, ?_, ?_, ?_, ?_⟩
  · rw [countEv_append, sg_created_count,
      countEv_audio_tail_zero audio _ rid body.sessionId (fun _ => rfl) (fun _ _ => rfl)]
  · rfl
  · rw [countEv_append, sg_error_count,
      countEv_audio_tail_zero audio _ rid body.sessionId (fun _ => rfl) (fun _ _ => rfl)]
    omega
  · rw [countEv_append, sg_completed_count,
      countEv_audio_tail_zero audio _ rid body.sessionId (fun _ => rfl) (fun _ _ => rfl)]
    omega
  · intro hv
    rw [hv]
    constructor
    · intro hr
      simp only [Bool.false_eq_true, if_false, List.append_nil]
      exact sg_last_of_ok rid body.sessionId hr
    · intro m hr
      simp only [Bool.false_eq_true, if_false, List.append_nil]
      exact sg_last_of_raises rid body.sessionId hr

/-- C1 witness: a concrete no-voice request on the simulated stream,
instantiating every hypothesis of the amended C1 theorem. -/
theorem claim_C1_amended_witness :
    (chat_stream_post defaultCfg [] 0 0 ⟨"你好", some "s", none⟩ none none
        (mockTextStream MOCK_REPLY) (voiceMockAudio "你好") "req-1").events.getLast?
      = some (.completed []) :=
  ((claim_C1_amended defaultCfg [] 0 0 ⟨"你好", some "s", none⟩ none none
      (mockTextStream MOCK_REPLY) (voiceMockAudio "你好") "req-1").2.2.2.2 rfl).1 rfl

/-- C2 (amended): a text-stream exception is caught and produces exactly one
`response.error`; with no voice identifier nothing follows it (it is the
last event).  But with a voice identifier supplied, the audio stage still
runs after the error: when synthesis succeeds, the stream ends with
`audio.completed` — events do follow the error.  An exception raised while
iterating the audio source is not caught at all: the generator aborts and
no `response.error` is emitted for it. -/
theorem claim_C2_amended (cfg : StoreCfg) (st : Store) (now now2 : Nat)
    (body : ChatStreamBody) (hdr qry : Option String) (ts : TextStream)
    (audio : AudioStream) (rid : String) :
    countEv isError (chat_stream_post cfg st now now2 body hdr qry ts audio rid).events
        = (if ts.raises.isSome then 1 else 0)
    ∧ (∀ m, ts.raises = some m → strTruthy (pyOrOpt hdr qry) = false →
        (chat_stream_post cfg st now now2 body hdr qry ts audio rid).events.getLast?
          = some (.error m))
    ∧ (∀ m, ts.raises = some m → strTruthy (pyOrOpt hdr qry) = true →
        audio.raises = none →
        (chat_stream_post cfg st now now2 body hdr qry ts audio rid).events.getLast?
          = some (.audioCompleted ((pyOrOpt hdr qry).getD "") (pyOrStr body.sessionId rid)))
    ∧ (ts.raises = none → strTruthy (pyOrOpt hdr qry) = true → audio.raises.isSome →
        (chat_stream_post cfg st now now2 body hdr qry ts audio rid).aborted = true
          ∧ countEv isError
              (chat_stream_post cfg st now now2 body hdr qry ts audio rid).events = 0) := by
  refine ⟨?_, ?_, ?_, ?_⟩
  · rw [csp_events, swv_events, countEv_append, sg_error_count,
      countEv_audio_tail_zero audio _ rid body.sessionId (fun _ => rfl) (fun _ _ => rfl)]
    omega
  · intro m hr hv
    rw [csp_events, swv_events, hv]
    simp only [Bool.false_eq_true, if_false, List.append_nil]
    exact sg_last_of_raises rid body.sessionId hr
  · intro m hr hv ha
    rw [csp_events, swv_events, hv, ha]
    simp only [if_true]
    rw [← List.append_assoc]
    exact getLast?_append_single _ _
  · intro hr hv ha
    constructor
    · rw [csp_aborted, swv_aborted, hv, ha]
      rfl
    · rw [csp_events, swv_events, countEv_append, sg_error_count, hr,
        countEv_audio_tail_zero audio _ rid body.sessionId (fun _ => rfl) (fun _ _ => rfl)]
      rfl

/-- C2 witness: with the text stream raising and voice "v" supplied, the
amended theorem yields the error event followed by a terminal
`audio.completed` — exercised at a concrete input. -/
theorem claim_C2_amended_witness :
    (chat_stream_post defaultCfg [] 0 0 ⟨"hi", some "s", none⟩ (some "v") none
        raisingTextStream (voiceMockAudio "hi") "r").events.getLast?
      = some (.audioCompleted "v" "s") :=
  (claim_C2_amended defaultCfg [] 0 0 ⟨"hi", some "s", none⟩ (some "v") none
      raisingTextStream (voiceMockAudio "hi") "r").2.2.1 "boom" rfl rfl rfl

/-- C3 (amended): with no inline messages and a live session record, the
placeholder append to the session cache happens whenever the generator
chain finishes without a propagated exception — including when the stream
ended in the Errored state (a `response.error` was emitted for a
text-stream failure); the cache is left unchanged by the request tail only
when the generator aborts, which happens exactly when the audio stage runs
and raises. -/
theorem claim_C3_amended (cfg : StoreCfg) (st : Store) (now now2 : Nat)
    (body : ChatStreamBody) (hdr qry : Option String) (ts : TextStream)
    (audio : AudioStream) (rid : String)
    (hmsgs : body.messages = none) (rec : SessionRecord)
    (hl : st.lookup (pyOrStr body.sessionId rid) = some rec)
    (hx1 : cfg.isExpired now rec.ts = false)
    (hx2 : cfg.isExpired now2 rec.ts = false) :
    ((chat_stream_post cfg st now now2 body hdr qry ts audio rid).aborted = false →
      Store.lookup (chat_stream_post cfg st now now2 body hdr qry ts audio rid).store
          (pyOrStr body.sessionId rid)
        = some ⟨trimWindow (cfg.max_rounds * 2) (rec.messages ++ [placeholderMsg]), now2⟩)
    ∧ ((chat_stream_post cfg st now now2 body hdr qry ts audio rid).aborted = true →
      (chat_stream_post cfg st now now2 body hdr qry ts audio rid).store = st)
    ∧ (chat_stream_post cfg st now now2 body hdr qry ts audio rid).aborted
        = (strTruthy (pyOrOpt hdr qry) && audio.raises.isSome)
    ∧ countEv isError (chat_stream_post cfg st now now2 body hdr qry ts audio rid).events
        = (if ts.raises.isSome then 1 else 0) := by
  have hget := get_of_live cfg st now (pyOrStr body.sessionId rid) rec hl hx1
  have hstore : (chat_stream_post cfg st now now2 body hdr qry ts audio rid).store
      = if (stream_with_voice ts audio (pyOrOpt hdr qry) rid body.sessionId).2 then st
        else SessionStore.append cfg st now2 (pyOrStr body.sessionId rid) placeholderMsg := by
    unfold chat_stream_post
    rw [hmsgs]
    simp only [hget]
  refine ⟨?_, ?_, ?_, ?_⟩
  · intro hab
    rw [csp_aborted] at hab
    rw [hstore, hab]
    simp only [Bool.false_eq_true, if_false]
    exact append_lookup_live cfg st now2 _ placeholderMsg rec hl hx2
  · intro hab
    rw [csp_aborted] at hab
    rw [hstore, hab]
    simp
  · rw [csp_aborted, swv_aborted]
  · rw [csp_events, swv_events, countEv_append, sg_error_count,
      countEv_audio_tail_zero audio _ rid body.sessionId (fun _ => rfl) (fun _ _ => rfl)]
    omega

/-- C3 witness: concrete request whose text stream raises with no voice id:
exactly one `response.error` is emitted, yet the placeholder turn is
written into the session cache. -/
theorem claim_C3_amended_witness :
    Store.lookup (chat_stream_post defaultCfg [("s", ⟨[userMsgX], 0⟩)] 0 0
          ⟨"hi", some "s", none⟩ none none raisingTextStream (voiceMockAudio "hi")
          "r").store "s"
        = some ⟨trimWindow (defaultCfg.max_rounds * 2) ([userMsgX] ++ [placeholderMsg]), 0⟩
      ∧ countEv isError (chat_stream_post defaultCfg [("s", ⟨[userMsgX], 0⟩)] 0 0
          ⟨"hi", some "s", none⟩ none none raisingTextStream (voiceMockAudio "hi")
          "r").events = (if raisingTextStream.raises.isSome then 1 else 0) :=
  ⟨(claim_C3_amended defaultCfg [("s", ⟨[userMsgX], 0⟩)] 0 0 ⟨"hi", some "s", none⟩
      none none raisingTextStream (voiceMockAudio "hi") "r" rfl ⟨[userMsgX], 0⟩
      rfl (by decide) (by decide)).1 rfl,
   (claim_C3_amended defaultCfg [("s", ⟨[userMsgX], 0⟩)] 0 0 ⟨"hi", some "s", none⟩
      none none raisingTextStream (voiceMockAudio "hi") "r" rfl ⟨[userMsgX], 0⟩
      rfl (by decide) (by decide)).2.2.2⟩

/-- C10 (amended): on the streaming path with no inline messages and a live
session record, the only persistence is a single append of the fixed
placeholder assistant message: the stored history becomes the most recent
`2*maxRounds` entries of `old ++ [placeholder]` — growth by exactly one
message while below the cap, and at the cap the length stays `2*maxRounds`
with the oldest entry dropped.  The user's input and the model's generated
reply are never written. -/
theorem claim_C10_amended (cfg : StoreCfg) (st : Store) (now now2 : Nat)
    (body : ChatStreamBody) (hdr qry : Option String) (ts : TextStream)
    (audio : AudioStream) (rid : String)
    (hmsgs : body.messages = none) (rec : SessionRecord)
    (hl : st.lookup (pyOrStr body.sessionId rid) = some rec)
    (hx1 : cfg.isExpired now rec.ts = false)
    (hx2 : cfg.isExpired now2 rec.ts = false)
    (hab : (chat_stream_post cfg st now now2 body hdr qry ts audio rid).aborted = false) :
    (Store.lookup (chat_stream_post cfg st now now2 body hdr qry ts audio rid).store
          (pyOrStr body.sessionId rid)).map SessionRecord.messages
        = some (trimWindow (cfg.max_rounds * 2) (rec.messages ++ [placeholderMsg]))
    ∧ (rec.messages.length < cfg.max_rounds * 2 →
        (Store.lookup (chat_stream_post cfg st now now2 body hdr qry ts audio rid).store
            (pyOrStr body.sessionId rid)).map SessionRecord.messages
          = some (rec.messages ++ [placeholderMsg]))
    ∧ (rec.messages.length = cfg.max_rounds * 2 → 0 < cfg.max_rounds →
        (Store.lookup (chat_stream_post cfg st now now2 body hdr qry ts audio rid).store
            (pyOrStr body.sessionId rid)).map SessionRecord.messages
          = some (rec.messages.drop 1 ++ [placeholderMsg])) := by
  have hget := get_of_live cfg st now (pyOrStr body.sessionId rid) rec hl hx1
  have hstore : (chat_stream_post cfg st now now2 body hdr qry ts audio rid).store
      = SessionStore.append cfg st now2 (pyOrStr body.sessionId rid) placeholderMsg := by
    unfold chat_stream_post
    rw [hmsgs]
    rw [csp_aborted] at hab
    simp only [hget, hab, Bool.false_eq_true, if_false]
  have hlook : Store.lookup (chat_stream_post cfg st now now2 body hdr qry ts audio rid).store
        (pyOrStr body.sessionId rid)
      = some ⟨trimWindow (cfg.max_rounds * 2) (rec.messages ++ [placeholderMsg]), now2⟩ := by
    rw [hstore]
    exact append_lookup_live cfg st now2 _ placeholderMsg rec hl hx2
  refine ⟨?_, ?_, ?_⟩
  · rw [hlook]; rfl
  · intro hlt
    rw [hlook]
    have : trimWindow (cfg.max_rounds * 2) (rec.messages ++ [placeholderMsg])
        = rec.messages ++ [placeholderMsg] :=
      trimWindow_eq_self (by simp; omega)
    rw [this]
    rfl
  · intro hcap hmr
    rw [hlook]
    have hlen : (rec.messages ++ [placeholderMsg]).length = cfg.max_rounds * 2 + 1 := by
      simp [hcap]
    have : trimWindow (cfg.max_rounds * 2) (rec.messages ++ [placeholderMsg])
        = rec.messages.drop 1 ++ [placeholderMsg] := by
      unfold trimWindow
      rw [if_pos (by omega), if_neg (by omega), hlen]
      have e1 : cfg.max_rounds * 2 + 1 - cfg.max_rounds * 2 = 1 := by omega
      rw [e1]
      exact List.drop_append_of_le_length (by omega)
    rw [this]
    rfl

theorem chunkB64s_voiceMock (ws : List (List Nat)) :
    chunkB64s (ws.map (fun w => [("b64", JVal.s (String.mk (b64EncodeBytes w)))]))
      = ws.map (fun w => String.mk (b64EncodeBytes w)) := by
  induction ws with
  | nil => rfl
  | cons w t ih =>
    simp only [List.map_cons]
    rw [show chunkB64s ([("b64", JVal.s (String.mk (b64EncodeBytes w)))]
          :: t.map (fun w => [("b64", JVal.s (String.mk (b64EncodeBytes w)))]))
        = String.mk (b64EncodeBytes w)
          :: chunkB64s (t.map (fun w => [("b64", JVal.s (String.mk (b64EncodeBytes w)))]))
        from rfl, ih]

/-- The documented intent of the simulated audio variant, satisfied by
`VoiceMockStream` itself: one chunk per fixed-size (10-byte) window of the
UTF-8 encoding of the text (the last window possibly shorter), each chunk
the base64 encoding of its window; the windows partition the UTF-8 bytes,
and base64-decoding every chunk and concatenating the results reproduces
the UTF-8 encoding exactly. -/
theorem voiceMockStream_roundtrip (text : String) :
    chunkB64s (voiceMockEvents 10 text)
        = (windowChunks 10 (utf8Bytes text)).map (fun w => String.mk (b64EncodeBytes w))
    ∧ (∀ w ∈ windowChunks 10 (utf8Bytes text), w.length ≤ 10)
    ∧ (windowChunks 10 (utf8Bytes text)).flatten = utf8Bytes text
    ∧ ((chunkB64s (voiceMockEvents 10 text)).map
          (fun s => b64DecodeBytes s.data)).flatten = utf8Bytes text := by
  have hchunks : chunkB64s (voiceMockEvents 10 text)
      = (windowChunks 10 (utf8Bytes text)).map (fun w => String.mk (b64EncodeBytes w)) :=
    chunkB64s_voiceMock _
  have hflat : (windowChunks 10 (utf8Bytes text)).flatten = utf8Bytes text :=
    windowChunksAux_flatten 10 (by omega) _ _ le_rfl
  refine ⟨hchunks, ?_, hflat, ?_⟩
  · intro w hw
    exact windowChunksAux_length 10 (utf8Bytes text).length (utf8Bytes text) w hw
  · rw [hchunks, List.map_map]
    have hmap : ∀ w ∈ windowChunks 10 (utf8Bytes text),
        ((fun s : String => b64DecodeBytes s.data)
          ∘ (fun w => String.mk (b64EncodeBytes w))) w = id w := by
      intro w hw
      show b64DecodeBytes (b64EncodeBytes w) = w
      refine b64_roundtrip w ?_
      intro x hx
      exact utf8Bytes_lt_256 text x
        (windowChunksAux_mem 10 (utf8Bytes text).length (utf8Bytes text) w hw x hx)
    rw [List.map_congr_left hmap, List.map_id]
    exact hflat

/-- C4 (code bug): the claim states the documented contract of the
simulated audio source, but the code breaks it.  `synthesize_stream`
contains a `yield` (`voice_client.py` line 145), so it is a generator
function, and its simulated-mode `return VoiceMockStream(text)` (line 106)
discards the mock stream and ends iteration at once: at the failing input
`"hi"`, iterating the returned object yields zero chunks, so decoding and
concatenating the chunks gives the empty byte list — not the two-byte
UTF-8 encoding of `"hi"` — contradicting both the claim and the method's
own docstring ("each iteration returns a `{"b64": ...}` dict"; "in mock
mode, return the simulated stream").  The discarded `VoiceMockStream`
itself would have satisfied the claim for every text (last conjunct). -/
theorem claim_C4_mock_synthesize_yields_nothing :
    (voiceMockAudio "hi").chunks = []
    ∧ ((chunkB64s ((voiceMockAudio "hi").chunks)).map
          (fun s => b64DecodeBytes s.data)).flatten = []
    ∧ utf8Bytes "hi" = [104, 105]
    ∧ (∀ text : String,
        ((chunkB64s (voiceMockEvents 10 text)).map
            (fun s => b64DecodeBytes s.data)).flatten = utf8Bytes text) :=
  ⟨rfl, rfl, rfl, fun text => (voiceMockStream_roundtrip text).2.2.2⟩

/-- If no `p`-event occurs in the right part and no `q`-event in the left
part, then in the concatenation all `p`-events precede all `q`-events. -/
theorem allBefore_append {p q : WireEvent → Bool} {l₁ l₂ : List WireEvent}
    (h₁ : ∀ x ∈ l₂, p x = false) (h₂ : ∀ x ∈ l₁, q x = false) :
    allBefore p q (l₁ ++ l₂) := by
  intro i j hi hj hp hq
  by_cases hil : i < l₁.length
  · by_cases hjl : j < l₁.length
    · exfalso
      rw [List.getElem_append_left hjl] at hq
      exact absurd hq (by rw [h₂ _ (List.getElem_mem _)]; simp)
    · omega
  · exfalso
    have hge : l₁.length ≤ i := by omega
    rw [List.getElem_append_right hge] at hp
    exact absurd hp (by rw [h₁ _ (List.getElem_mem _)]; simp)

/-- C7: audio events appear in a response stream iff a voice identifier was
supplied (header `X-Voice-Id` or query `voiceId`, first truthy one wins):
when absent, no `audio.chunk` or `audio.completed` is ever emitted; when
present and synthesis succeeds, the stream contains exactly one
`audio.completed`, carrying the voice identifier and the resolved session
key (`sessionId or requestId`), every `audio.chunk` precedes it, and no
`audio.chunk` appears before the last `content.delta`. -/
theorem claim_C7_voice_gating (cfg : StoreCfg) (st : Store) (now now2 : Nat)
    (body : ChatStreamBody) (hdr qry : Option String) (ts : TextStream)
    (audio : AudioStream) (rid : String) :
    (strTruthy (pyOrOpt hdr qry) = false →
      countEv isAudioChunk
          (chat_stream_post cfg st now now2 body hdr qry ts audio rid).events = 0
        ∧ countEv isAudioCompleted
            (chat_stream_post cfg st now now2 body hdr qry ts audio rid).events = 0)
    ∧ (strTruthy (pyOrOpt hdr qry) = true → audio.raises = none →
        ((chat_stream_post cfg st now now2 body hdr qry ts audio rid).events).filter
            isAudioCompleted
          = [.audioCompleted ((pyOrOpt hdr qry).getD "") (pyOrStr body.sessionId rid)]
        ∧ allBefore isAudioChunk isAudioCompleted
            (chat_stream_post cfg st now now2 body hdr qry ts audio rid).events
        ∧ allBefore isContentDelta isAudioChunk
            (chat_stream_post cfg st now now2 body hdr qry ts audio rid).events) := by
  constructor
  · intro hv
    rw [csp_events, swv_events, hv]
    simp only [Bool.false_eq_true, if_false, List.append_nil]
    constructor
    · exact countEv_eq_zero (fun e he => (sg_no_audio ts rid body.sessionId e he).1)
    · exact countEv_eq_zero (fun e he => (sg_no_audio ts rid body.sessionId e he).2)
  · intro hv ha
    rw [csp_events, swv_events, hv, ha]
    simp only [if_true]
    have hsgFilter : (stream_generator ts rid body.sessionId).filter isAudioCompleted = [] :=
      List.filter_eq_nil_iff.mpr
        (fun e he => by rw [(sg_no_audio ts rid body.sessionId e he).2]; simp)
    have hmapFilter : (audio.chunks.map WireEvent.audioChunk).filter isAudioCompleted = [] :=
      List.filter_eq_nil_iff.mpr
        (fun e he => by
          rw [List.mem_map] at he
          obtain ⟨d, -, rfl⟩ := he
          simp [isAudioCompleted])
    refine ⟨?_, ?_, ?_⟩
    · rw [List.filter_append, List.filter_append, hsgFilter, hmapFilter]
      rfl
    · rw [← List.append_assoc]
      refine allBefore_append ?_ ?_
      · intro x hx
        rw [List.mem_singleton] at hx
        subst hx
        rfl
      · intro x hx
        rw [List.mem_append] at hx
        rcases hx with hx | hx
        · exact (sg_no_audio ts rid body.sessionId x hx).2
        · rw [List.mem_map] at hx
          obtain ⟨d, -, rfl⟩ := hx
          rfl
    · refine allBefore_append ?_ ?_
      · intro x hx
        rw [List.mem_append] at hx
        rcases hx with hx | hx
        · rw [List.mem_map] at hx
          obtain ⟨d, -, rfl⟩ := hx
          rfl
        · rw [List.mem_singleton] at hx
          subst hx
          rfl
      · intro x hx
        exact (sg_no_audio ts rid body.sessionId x hx).1

/-- C7 witness: concrete no-voice and with-voice requests exercising both
directions of the amended gating property. -/
theorem claim_C7_voice_gating_witness :
    (countEv isAudioChunk (chat_stream_post defaultCfg [] 0 0 ⟨"hi", some "s", none⟩
          none none (mockTextStream MOCK_REPLY) (voiceMockAudio "hi") "r").events = 0
      ∧ countEv isAudioCompleted (chat_stream_post defaultCfg [] 0 0 ⟨"hi", some "s", none⟩
          none none (mockTextStream MOCK_REPLY) (voiceMockAudio "hi") "r").events = 0)
    ∧ ((chat_stream_post defaultCfg [] 0 0 ⟨"hi", some "s", none⟩ (some "v") none
          (mockTextStream MOCK_REPLY) (voiceMockAudio "hi") "r").events).filter
        isAudioCompleted = [.audioCompleted "v" "s"]
    ∧ allBefore isContentDelta isAudioChunk
        (chat_stream_post defaultCfg [] 0 0 ⟨"hi", some "s", none⟩ (some "v") none
          (mockTextStream MOCK_REPLY) (voiceMockAudio "hi") "r").events :=
  ⟨(claim_C7_voice_gating defaultCfg [] 0 0 ⟨"hi", some "s", none⟩ none none
      (mockTextStream MOCK_REPLY) (voiceMockAudio "hi") "r").1 rfl,
   ((claim_C7_voice_gating defaultCfg [] 0 0 ⟨"hi", some "s", none⟩ (some "v") none
      (mockTextStream MOCK_REPLY) (voiceMockAudio "hi") "r").2 rfl rfl).1,
   ((claim_C7_voice_gating defaultCfg [] 0 0 ⟨"hi", some "s", none⟩ (some "v") none
      (mockTextStream MOCK_REPLY) (voiceMockAudio "hi") "r").2 rfl rfl).2.2⟩

/-- C8: with redaction enabled, the preview built for
`"email: a@b.com token=abcdef123456"` (with the default 1000-character
budget) contains neither the literal email address `a@b.com` nor the
literal token value `abcdef123456` as a substring; the produced preview is
`"email: a***@b*** token=***"`. -/
theorem claim_C8_redaction :
    hasSubstr (build_preview (some "email: a@b.com token=abcdef123456") 1000 true).preview.data
        "a@b.com".data = false
    ∧ hasSubstr (build_preview (some "email: a@b.com token=abcdef123456") 1000 true).preview.data
        "abcdef123456".data = false
    ∧ (build_preview (some "email: a@b.com token=abcdef123456") 1000 true).preview
        = "email: a***@b*** token=***" := by
  refine ⟨by decide, by decide, rfl⟩

/-- C10 witness: a one-message history below the cap grows by exactly the
placeholder message, and by nothing else. -/
theorem claim_C10_amended_witness :
    (Store.lookup (chat_stream_post defaultCfg [("s", ⟨[userMsgX], 0⟩)] 0 0
          ⟨"hi", some "s", none⟩ none none (mockTextStream MOCK_REPLY)
          (voiceMockAudio "hi") "r").store "s").map SessionRecord.messages
      = some ([userMsgX] ++ [placeholderMsg]) :=
  (claim_C10_amended defaultCfg [("s", ⟨[userMsgX], 0⟩)] 0 0 ⟨"hi", some "s", none⟩
      none none (mockTextStream MOCK_REPLY) (voiceMockAudio "hi") "r" rfl
      ⟨[userMsgX], 0⟩ rfl (by decide) (by decide) rfl).2.1 (by decide)

end ChatSSE
